import Mathlib

/-!
Verification of the project/resource tracker (src/app.py).

The development has two models, both translated directly from the source:

* a schema-level model of `init_db` (tables as column lists plus positional
  rows), used for the migration claims;
* a row-level model of the repository functions and the form submit handlers,
  used for the CRUD, filtering and dashboard claims.

SQLite specifics that the source relies on are made explicit: every
connection runs `PRAGMA foreign_keys = ON` (`get_db_connection`), so the
`ON DELETE CASCADE` clauses of `milestones.project_id` and
`resources.project_id` are active, and inserts with a dangling `project_id`
raise a foreign-key violation.  `AUTOINCREMENT` ids and
`CURRENT_TIMESTAMP` values are store-assigned; they are modelled as explicit
`new_id` / `created_at` parameters of the insert operations.
-/

namespace ProjectTracker

/-! ## Schema-level model of `init_db` -/

/-- A table at the schema level: the declared column names, and the rows as
positional lists of cell values (`none` is SQL NULL).  `ALTER TABLE RENAME
COLUMN` only touches the metadata; `ALTER TABLE ADD COLUMN` appends a NULL
cell to every row — exactly as in SQLite. -/
structure Table where
  cols : List String
  rows : List (List (Option String))
deriving Repr, DecidableEq

/-- The store as seen by `init_db`: each of the three tables may or may not
exist yet (`CREATE TABLE IF NOT EXISTS`). -/
structure Store where
  projects : Option Table
  milestones : Option Table
  resources : Option Table
deriving Repr, DecidableEq

/-- Column list of the `projects` table created by `init_db` on first run. -/
def projectCols : List String :=
  ["id", "name", "product", "business_owner", "scrum_master", "platforms",
   "planned_go_live", "status", "delivery_month", "notes", "created_at"]

/-- Column list of the `milestones` table created by `init_db`. -/
def milestoneCols : List String :=
  ["id", "project_id", "milestone_type", "planned_date", "revised_date",
   "delay_reason", "created_at"]

/-- Column list of the `resources` table created by `init_db`. -/
def resourceCols : List String :=
  ["id", "employee_name", "role", "project_id", "phase", "allocation_pct",
   "end_rule", "created_at"]

/-- `ALTER TABLE projects RENAME COLUMN old TO new`: metadata only. -/
def renameColumn (t : Table) (old new : String) : Table :=
  { cols := t.cols.map (fun c => if c = old then new else c), rows := t.rows }

/-- `ALTER TABLE projects ADD COLUMN c`: the column is appended and every
existing row gets a NULL cell for it. -/
def addColumn (t : Table) (c : String) : Table :=
  { cols := t.cols ++ [c], rows := t.rows.map (fun r => r ++ [none]) }

/-- The columns `init_db` adds when missing, in source order. -/
def addedCols : List String :=
  ["scrum_master", "platforms", "delivery_month", "notes"]

/-- The migration body of `init_db` on the (already existing or just created)
`projects` table.  As in the source, the column list is read once
(`PRAGMA table_info(projects)`) and all five conditions are checked against
that single snapshot. -/
def migrate_projects (t : Table) : Table :=
  let columns := t.cols
  let t1 := if columns.contains "product_squad" && !(columns.contains "product")
            then renameColumn t "product_squad" "product" else t
  let t2 := if columns.contains "scrum_master" then t1 else addColumn t1 "scrum_master"
  let t3 := if columns.contains "platforms" then t2 else addColumn t2 "platforms"
  let t4 := if columns.contains "delivery_month" then t3 else addColumn t3 "delivery_month"
  if columns.contains "notes" then t4 else addColumn t4 "notes"

/-- `init_db`: create the three tables if absent, then migrate the
`projects` table in place. -/
def init_db (s : Store) : Store :=
  { projects := some (migrate_projects (s.projects.getD { cols := projectCols, rows := [] })),
    milestones := some (s.milestones.getD { cols := milestoneCols, rows := [] }),
    resources := some (s.resources.getD { cols := resourceCols, rows := [] }) }

/-- The rename map applied by the migration when the old column is present
and the new one is not. -/
def renameMap (c : String) : String :=
  if c = "product_squad" then "product" else c

/-! ## Row-level model -/

/-- A row of the `projects` table (post-migration schema, column order as in
`projectCols`; `status` is the column at index 7).  Nullable columns are
`Option`s; `id` and `created_at` are store-assigned. -/
structure ProjectRow where
  id : Nat
  name : String
  product : Option String
  business_owner : Option String
  scrum_master : Option String
  platforms : Option String
  planned_go_live : Option String
  status : Option String
  delivery_month : Option String
  notes : Option String
  created_at : Nat
deriving Repr, DecidableEq

/-- A row of the `milestones` table.  Dates are modelled as day ordinals
(`Nat`), which carries exactly the order used by the handler's
`revised_date > planned_date` comparison. -/
structure MilestoneRow where
  id : Nat
  project_id : Nat
  milestone_type : String
  planned_date : Nat
  revised_date : Option Nat
  delay_reason : Option String
  created_at : Nat
deriving Repr, DecidableEq

/-- A row of the `resources` table. -/
structure ResourceRow where
  id : Nat
  employee_name : String
  role : String
  project_id : Nat
  phase : String
  allocation_pct : Nat
  end_rule : String
  created_at : Nat
deriving Repr, DecidableEq

/-- The migrated store, as typed rows. -/
structure Db where
  projects : List ProjectRow
  milestones : List MilestoneRow
  resources : List ResourceRow
deriving Repr, DecidableEq

/-- Errors a parameterized statement can raise at execution time.  With
`PRAGMA foreign_keys = ON` (set by `get_db_connection` on every connection)
an insert whose `project_id` references no `projects` row raises this. -/
inductive SqlError where
  | foreignKeyViolation
deriving Repr, DecidableEq

/-- Outcome of one repository call, together with whether the connection the
call had opened was closed before the call returned.  The source functions
run `conn = get_db_connection(); cursor.execute(...); conn.commit();
conn.close()` with no `try`/`finally` and no `with` block, so an exception
raised by `execute` propagates before `conn.close()` is reached. -/
structure RepoResult (α : Type) where
  result : Except SqlError α
  connClosed : Bool

/-- `PROJECT_STATUSES` from the source. -/
def PROJECT_STATUSES : List String :=
  ["New Request", "Brainstorming", "Scope Ready", "In Development",
   "Dev Completed", "Handover to QA", "QA End", "Stakeholder Demo",
   "Go-Live", "Delayed"]

/-- `PRODUCTS` from the source. -/
def PRODUCTS : List String :=
  ["Imran Siddiqui", "Angelia Agustina", "Heba Hosny"]

/-- `SELECT * FROM projects WHERE id = ?` followed by `fetchone()`. -/
def get_project_by_id (db : Db) (project_id : Nat) : Option ProjectRow :=
  db.projects.find? (fun p => p.id == project_id)

/-- `INSERT INTO projects (...) VALUES (...)` as issued by `add_project`:
all nine supplied columns are bound to non-NULL values. -/
def add_project (db : Db) (new_id created_at : Nat)
    (name product business_owner scrum_master platforms planned_go_live
     status delivery_month notes : String) : Db :=
  { db with projects := db.projects ++
      [{ id := new_id, name := name, product := some product,
         business_owner := some business_owner, scrum_master := some scrum_master,
         platforms := some platforms, planned_go_live := some planned_go_live,
         status := some status, delivery_month := some delivery_month,
         notes := some notes, created_at := created_at }] }

/-- `UPDATE projects SET status = ? WHERE id = ?`. -/
def update_project_status (db : Db) (project_id : Nat) (new_status : String) : Db :=
  { db with projects := db.projects.map (fun p =>
      if p.id == project_id then { p with status := some new_status } else p) }

/-- `UPDATE projects SET notes = ? WHERE id = ?`. -/
def update_project_notes (db : Db) (project_id : Nat) (notes : String) : Db :=
  { db with projects := db.projects.map (fun p =>
      if p.id == project_id then { p with notes := some notes } else p) }

/-- `DELETE FROM projects WHERE id = ?` on a connection with
`PRAGMA foreign_keys = ON`: the storage layer removes the matching project
rows and, by the `ON DELETE CASCADE` clauses, every milestone and resource
row referencing a removed project.  This is the single statement issued by
`delete_project`; the application does not loop over children. -/
def delete_project (db : Db) (project_id : Nat) : Db :=
  let parentDeleted := db.projects.any (fun p => p.id == project_id)
  { projects := db.projects.filter (fun p => !(p.id == project_id)),
    milestones := db.milestones.filter (fun m =>
      !(parentDeleted && m.project_id == project_id)),
    resources := db.resources.filter (fun r =>
      !(parentDeleted && r.project_id == project_id)) }

/-- `add_milestone`: the `INSERT INTO milestones` statement checks the
foreign key (connection has `PRAGMA foreign_keys = ON`); on violation the
exception propagates before `conn.close()`. -/
def add_milestone (db : Db) (new_id created_at : Nat) (project_id : Nat)
    (milestone_type : String) (planned_date : Nat) (revised_date : Option Nat)
    (delay_reason : Option String) : RepoResult Db :=
  if db.projects.any (fun p => p.id == project_id) then
    { result := Except.ok { db with milestones := db.milestones ++
        [{ id := new_id, project_id := project_id, milestone_type := milestone_type,
           planned_date := planned_date, revised_date := revised_date,
           delay_reason := delay_reason, created_at := created_at }] },
      connClosed := true }
  else
    { result := Except.error SqlError.foreignKeyViolation, connClosed := false }

/-- `DELETE FROM milestones WHERE id = ?` (cannot raise). -/
def delete_milestone (db : Db) (milestone_id : Nat) : Db :=
  { db with milestones := db.milestones.filter (fun m => !(m.id == milestone_id)) }

/-- `add_resource`: like `add_milestone`, the insert checks the foreign key;
`end_rule` takes its schema default. -/
def add_resource (db : Db) (new_id created_at : Nat) (employee_name role : String)
    (project_id : Nat) (phase : String) (allocation_pct : Nat) : RepoResult Db :=
  if db.projects.any (fun p => p.id == project_id) then
    { result := Except.ok { db with resources := db.resources ++
        [{ id := new_id, employee_name := employee_name, role := role,
           project_id := project_id, phase := phase,
           allocation_pct := allocation_pct, end_rule := "Till Go-Live",
           created_at := created_at }] },
      connClosed := true }
  else
    { result := Except.error SqlError.foreignKeyViolation, connClosed := false }

/-- `DELETE FROM resources WHERE id = ?` (cannot raise). -/
def delete_resource (db : Db) (resource_id : Nat) : Db :=
  { db with resources := db.resources.filter (fun r => !(r.id == resource_id)) }

/-- `delete_project` as a full repository call: the `DELETE` statement
cannot raise, so the call always commits, closes the connection and returns
normally — regardless of whether any row matched the id. -/
def delete_project_call (db : Db) (project_id : Nat) : RepoResult Db :=
  { result := Except.ok (delete_project db project_id), connClosed := true }

/-- `delete_milestone` as a full repository call (never raises). -/
def delete_milestone_call (db : Db) (milestone_id : Nat) : RepoResult Db :=
  { result := Except.ok (delete_milestone db milestone_id), connClosed := true }

/-- `update_project_status` as a full repository call (never raises: an
`UPDATE` matching zero rows is a successful statement in SQLite). -/
def update_project_status_call (db : Db) (project_id : Nat) (new_status : String) :
    RepoResult Db :=
  { result := Except.ok (update_project_status db project_id new_status), connClosed := true }

/-! ## Listing and filtering (`get_all_projects`) -/

/-- ASCII lower-casing, the case folding SQLite's default `LIKE` applies. -/
def asciiLower (c : Char) : Char :=
  if 'A' ≤ c && c ≤ 'Z' then Char.ofNat (c.toNat + 32) else c

/-- One `LIKE` character comparison (ASCII case-insensitive by default). -/
def likeCharMatches (pc c : Char) : Bool :=
  asciiLower pc == asciiLower c

/-- SQLite `LIKE` pattern matching: `%` matches any run of characters, `_`
matches exactly one, any other pattern character matches case-insensitively. -/
def likeMatch : List Char → List Char → Bool
  | [], s => s.isEmpty
  | pc :: ps, [] => if pc = '%' then likeMatch ps [] else false
  | pc :: ps, c :: s1 =>
    if pc = '%' then likeMatch ps (c :: s1) || likeMatch (pc :: ps) s1
    else if pc = '_' then likeMatch ps s1
    else likeCharMatches pc c && likeMatch ps s1
termination_by ps s => (ps.length, s.length)

/-- The pattern `get_all_projects` binds for the product filter:
the Python f-string percent-filter-percent. -/
def like_pattern (product_filter : String) : List Char :=
  '%' :: (product_filter.toList ++ ['%'])

/-- The `WHERE` clause of `get_all_projects` on one row.  Each filter is
appended only when the Python argument is truthy (`None` and the empty
string / empty list are falsy), and SQL comparisons against a NULL column
do not match. -/
def row_matches (month_filter product_filter : Option String)
    (status_filter : Option (List String)) (p : ProjectRow) : Bool :=
  (match month_filter with
   | none => true
   | some m => if m == "" then true else p.delivery_month == some m)
  &&
  (match product_filter with
   | none => true
   | some f =>
     if f == "" then true
     else match p.product with
          | none => false
          | some prod => likeMatch (like_pattern f) prod.toList)
  &&
  (match status_filter with
   | none => true
   | some l =>
     if l.isEmpty then true
     else match p.status with
          | none => false
          | some s => l.contains s)

/-- The `ORDER BY created_at DESC` ordering relation. -/
def created_desc (a b : ProjectRow) : Prop :=
  b.created_at ≤ a.created_at

instance : DecidableRel created_desc :=
  fun a b => Nat.decLe b.created_at a.created_at

instance : IsTotal ProjectRow created_desc :=
  ⟨fun a b => Nat.le_total b.created_at a.created_at⟩

instance : IsTrans ProjectRow created_desc :=
  ⟨fun _ _ _ h1 h2 => Nat.le_trans h2 h1⟩

/-- `get_all_projects`: `SELECT * FROM projects WHERE <filters> ORDER BY
created_at DESC`. -/
def get_all_projects (month_filter product_filter : Option String)
    (status_filter : Option (List String)) (db : Db) : List ProjectRow :=
  List.insertionSort created_desc
    (db.projects.filter (row_matches month_filter product_filter status_filter))

/-! ## Project-name map (`get_project_names`) -/

/-- One Python `dict` assignment `d[k] = v`: an existing key keeps its
position and gets the new value, a new key is appended. -/
def dict_set (d : List (String × Nat)) (k : String) (v : Nat) : List (String × Nat) :=
  if d.any (fun kv => kv.1 == k) then
    d.map (fun kv => if kv.1 == k then (k, v) else kv)
  else d ++ [(k, v)]

/-- The dict comprehension over a list of `(name, id)` pairs. -/
def dict_of_pairs (l : List (String × Nat)) : List (String × Nat) :=
  l.foldl (fun d kv => dict_set d kv.1 kv.2) []

/-- Python `d[k]` / `d.get(k)` on the modelled dict. -/
def dict_get (d : List (String × Nat)) (k : String) : Option Nat :=
  (d.find? (fun kv => kv.1 == k)).map (fun kv => kv.2)

/-- The `ORDER BY name` relation used by `get_project_names`. -/
def name_le (a b : ProjectRow) : Prop :=
  a.name ≤ b.name

instance : DecidableRel name_le :=
  fun a b => inferInstanceAs (Decidable (a.name ≤ b.name))

/-- `get_project_names`: `SELECT id, name FROM projects ORDER BY name`, then
the dict comprehension keyed by name. -/
def get_project_names (db : Db) : List (String × Nat) :=
  dict_of_pairs ((List.insertionSort name_le db.projects).map (fun p => (p.name, p.id)))

/-! ## Dashboard counts (CTO Dashboard page) -/

/-- Rows of the listed frame whose status is not the string `Delayed`
(pandas: a NULL status compares unequal, so it counts as on-time). -/
def on_time_count (l : List ProjectRow) : Nat :=
  (l.filter (fun p => !(p.status == some "Delayed"))).length

/-- Rows of the listed frame whose status is exactly `Delayed`. -/
def delayed_count (l : List ProjectRow) : Nat :=
  (l.filter (fun p => p.status == some "Delayed")).length

/-! ## Form submit handlers -/

/-- The `platforms` multiselect is joined to a comma-separated string
(joining the empty selection gives the empty string, as in the source). -/
def join_platforms (platforms : List String) : String :=
  String.intercalate ", " platforms

/-- The project-intake submit handler: the row is inserted unless the name
is empty (falsy) or the product selectbox is still on its placeholder.  The
returned flag records whether the error message was shown instead of
writing. -/
def project_form_submit (db : Db) (new_id created_at : Nat)
    (project_name product business_owner scrum_master : String)
    (platforms : List String) (planned_go_live status delivery_month notes : String) :
    Db × Bool :=
  if project_name == "" || product == "Select Product" then (db, true)
  else
    (add_project db new_id created_at project_name product business_owner
      scrum_master (join_platforms platforms) planned_go_live status
      delivery_month notes, false)

/-- The options of the product selectbox: the placeholder plus `PRODUCTS`. -/
def product_options : List String :=
  "Select Product" :: PRODUCTS

/-- Outcome of the milestone-form submit handler. -/
structure MilestoneSubmitOutcome where
  db : Db
  errorShown : Bool
  suggestionOffered : Bool
deriving Repr, DecidableEq

/-- The milestone submit handler: insert the milestone; on an exception show
the error.  On success, when a revised date exists and is strictly later
than the planned date, re-read the project and — if it was found and its
status (column index 7) is not already `Delayed` — offer the `Mark as
Delayed` suggestion.  Accepting the suggestion is a separate click that runs
`update_project_status project_id "Delayed"`; the handler itself writes no
project row. -/
def milestone_form_submit (db : Db) (new_id created_at : Nat) (project_id : Nat)
    (milestone_type : String) (planned_date : Nat) (revised_date : Option Nat)
    (delay_reason : Option String) : MilestoneSubmitOutcome :=
  match (add_milestone db new_id created_at project_id milestone_type
          planned_date revised_date delay_reason).result with
  | Except.error _ => { db := db, errorShown := true, suggestionOffered := false }
  | Except.ok db1 =>
    let suggest : Bool :=
      match revised_date with
      | none => false
      | some rd =>
        if planned_date < rd then
          match get_project_by_id db1 project_id with
          | none => false
          | some p => !(p.status == some "Delayed")
        else false
    { db := db1, errorShown := false, suggestionOffered := suggest }

/-! ## Sample data used by witnesses and counterexamples -/

/-- A sample project row (id 1, shipped, March 2026). -/
def sampleProject1 : ProjectRow :=
  { id := 1, name := "Alpha", product := some "Imran Siddiqui",
    business_owner := some "Owner A", scrum_master := some "SM A",
    platforms := some "iOS, Web", planned_go_live := some "2026-03-10",
    status := some "Go-Live", delivery_month := some "Mar 2026",
    notes := some "", created_at := 0 }

/-- A sample project row (id 2, not delayed). -/
def sampleProject2 : ProjectRow :=
  { id := 2, name := "Beta", product := some "Heba Hosny",
    business_owner := some "Owner B", scrum_master := some "SM B",
    platforms := some "Android", planned_go_live := some "2026-04-01",
    status := some "New Request", delivery_month := some "Apr 2026",
    notes := some "", created_at := 1 }

/-- A milestone of project 1. -/
def sampleMilestone1 : MilestoneRow :=
  { id := 1, project_id := 1, milestone_type := "DEV_START", planned_date := 10,
    revised_date := some 20, delay_reason := none, created_at := 2 }

/-- A milestone of project 2. -/
def sampleMilestone2 : MilestoneRow :=
  { id := 2, project_id := 2, milestone_type := "GO_LIVE", planned_date := 40,
    revised_date := none, delay_reason := none, created_at := 3 }

/-- A resource allocated to project 1. -/
def sampleResource1 : ResourceRow :=
  { id := 1, employee_name := "Jane", role := "FE", project_id := 1,
    phase := "DEV", allocation_pct := 80, end_rule := "Till Go-Live",
    created_at := 4 }

/-- A small populated store. -/
def sampleDb : Db :=
  { projects := [sampleProject1, sampleProject2],
    milestones := [sampleMilestone1, sampleMilestone2],
    resources := [sampleResource1] }

/-- The empty store. -/
def emptyDb : Db :=
  { projects := [], milestones := [], resources := [] }

/-! ## C1: cascade delete -/

/-- C1: for every project id `P`, `delete_project` removes the project row
with id `P` together with every milestone and resource row whose
`project_id = P` — in the model this is the semantics of the single
`DELETE FROM projects` statement under the storage layer's
`ON DELETE CASCADE` foreign keys (no application-level loop over children)
— and leaves every other row in place. -/
theorem delete_project_cascades (db : Db) (P : Nat)
    (h : ∃ p ∈ db.projects, p.id = P) :
    (∀ p ∈ (delete_project db P).projects, p.id ≠ P) ∧
    (∀ m ∈ (delete_project db P).milestones, m.project_id ≠ P) ∧
    (∀ r ∈ (delete_project db P).resources, r.project_id ≠ P) ∧
    (∀ p ∈ db.projects, p.id ≠ P → p ∈ (delete_project db P).projects) ∧
    (∀ m ∈ db.milestones, m.project_id ≠ P → m ∈ (delete_project db P).milestones) ∧
    (∀ r ∈ db.resources, r.project_id ≠ P → r ∈ (delete_project db P).resources) := by
  obtain ⟨p0, hp0, hid⟩ := h
  have hany : db.projects.any (fun p => p.id == P) = true :=
    List.any_eq_true.mpr ⟨p0, hp0, by simp [hid]⟩
  refine ⟨?_, ?_, ?_, ?_, ?_, ?_⟩
  · intro p hp
    simp only [delete_project, List.mem_filter] at hp
    simpa using hp.2
  · intro m hm
    simp only [delete_project, hany, List.mem_filter] at hm
    simpa using hm.2
  · intro r hr
    simp only [delete_project, hany, List.mem_filter] at hr
    simpa using hr.2
  · intro p hp hne
    simp only [delete_project, List.mem_filter]
    exact ⟨hp, by simpa using hne⟩
  · intro m hm hne
    simp only [delete_project, hany, List.mem_filter]
    exact ⟨hm, by simpa using hne⟩
  · intro r hr hne
    simp only [delete_project, hany, List.mem_filter]
    exact ⟨hr, by simpa using hne⟩

/-- Witness for C1 at a concrete store: deleting project 1 also removes its
milestone and its resource. -/
theorem delete_project_cascades_witness :
    (∀ m ∈ (delete_project sampleDb 1).milestones, m.project_id ≠ 1) ∧
    (∀ r ∈ (delete_project sampleDb 1).resources, r.project_id ≠ 1) :=
  ⟨(delete_project_cascades sampleDb 1 (by decide)).2.1,
   (delete_project_cascades sampleDb 1 (by decide)).2.2.1⟩

/-! ## C2: required-field validation on project creation -/

/-- C2: submitting the project form with an empty name or with the product
selectbox still on its placeholder is rejected before any write: the store
is returned unchanged (same row count) and the error flag is shown.  The
product value always comes from the selectbox options, so an empty product
string is impossible in the first place. -/
theorem project_form_rejects_missing_required
    (db : Db) (new_id created_at : Nat)
    (project_name product business_owner scrum_master : String)
    (platforms : List String) (planned_go_live status delivery_month notes : String)
    (hopt : product ∈ product_options)
    (hmiss : project_name = "" ∨ product = "Select Product") :
    project_form_submit db new_id created_at project_name product business_owner
      scrum_master platforms planned_go_live status delivery_month notes = (db, true) ∧
    (project_form_submit db new_id created_at project_name product business_owner
      scrum_master platforms planned_go_live status delivery_month
      notes).1.projects.length = db.projects.length ∧
    product ≠ "" := by
  have hcond : (project_name == "" || product == "Select Product") = true := by
    rcases hmiss with rfl | rfl <;> simp
  have heq : project_form_submit db new_id created_at project_name product business_owner
      scrum_master platforms planned_go_live status delivery_month notes = (db, true) := by
    simp [project_form_submit, hcond]
  refine ⟨heq, by rw [heq], ?_⟩
  intro h0
  rw [h0] at hopt
  exact absurd hopt (by decide)

/-- Witness for C2 at a concrete input: an unselected product aborts with no
write. -/
theorem project_form_rejects_missing_required_witness :
    project_form_submit sampleDb 3 7 "Gamma" "Select Product" "" "" []
      "2026-05-01" "New Request" "May 2026" "" = (sampleDb, true) ∧
    (project_form_submit sampleDb 3 7 "Gamma" "Select Product" "" "" []
      "2026-05-01" "New Request" "May 2026" "").1.projects.length =
      sampleDb.projects.length ∧
    ("Select Product" : String) ≠ "" :=
  project_form_rejects_missing_required sampleDb 3 7 "Gamma" "Select Product" "" ""
    [] "2026-05-01" "New Request" "May 2026" "" (by decide) (Or.inr rfl)

/-! ## C7: operations on a missing id -/

/-- Counterexample for C7: deleting the nonexistent project id 99 succeeds —
the call returns `ok` with the store unchanged (and the page then shows the
success message); no `NotFoundError` is surfaced, indeed no such error
exists anywhere in the program. -/
theorem missing_id_delete_reports_success_cex :
    (delete_project_call sampleDb 99).result = Except.ok sampleDb ∧
    (delete_project_call sampleDb 99).connClosed = true :=
  ⟨congrArg Except.ok (by decide), rfl⟩

/-- C7 (amended): an operation on a missing id is a silent no-op — the store
is unchanged and the call completes successfully; no error (in particular no
`NotFoundError`) is surfaced to the caller. -/
theorem missing_id_silent_noop (db : Db) (P M : Nat) (s : String)
    (hp : ∀ p ∈ db.projects, p.id ≠ P) (hm : ∀ m ∈ db.milestones, m.id ≠ M) :
    (delete_project_call db P).result = Except.ok db ∧
    (delete_project_call db P).connClosed = true ∧
    (update_project_status_call db P s).result = Except.ok db ∧
    (update_project_status_call db P s).connClosed = true ∧
    (delete_milestone_call db M).result = Except.ok db ∧
    (delete_milestone_call db M).connClosed = true := by
  have hany : db.projects.any (fun p => p.id == P) = false := by
    rw [List.any_eq_false]
    intro p hp'
    simp [hp p hp']
  have hdel : delete_project db P = db := by
    have h1 : db.projects.filter (fun p => !(p.id == P)) = db.projects :=
      List.filter_eq_self.mpr (fun p hp' => by simp [hp p hp'])
    simp only [delete_project, hany, Bool.false_and, Bool.not_false, List.filter_true]
    rw [h1]
  have hupd : update_project_status db P s = db := by
    unfold update_project_status
    have : db.projects.map (fun p =>
        if p.id == P then { p with status := some s } else p) = db.projects := by
      rw [List.map_congr_left (g := id) (fun p hp' => by simp [hp p hp']), List.map_id]
    rw [this]
  have hdelm : delete_milestone db M = db := by
    unfold delete_milestone
    have : db.milestones.filter (fun m => !(m.id == M)) = db.milestones :=
      List.filter_eq_self.mpr (fun m hm' => by simp [hm m hm'])
    rw [this]
  exact ⟨congrArg Except.ok hdel, rfl, congrArg Except.ok hupd, rfl,
    congrArg Except.ok hdelm, rfl⟩

/-- Witness for the amended C7 at a concrete store and missing ids. -/
theorem missing_id_silent_noop_witness :
    (delete_project_call sampleDb 99).result = Except.ok sampleDb ∧
    (delete_project_call sampleDb 99).connClosed = true ∧
    (update_project_status_call sampleDb 99 "Delayed").result = Except.ok sampleDb ∧
    (update_project_status_call sampleDb 99 "Delayed").connClosed = true ∧
    (delete_milestone_call sampleDb 77).result = Except.ok sampleDb ∧
    (delete_milestone_call sampleDb 77).connClosed = true :=
  missing_id_silent_noop sampleDb 99 77 "Delayed" (by decide) (by decide)

/-! ## C8: connection release -/

/-- Counterexample for C8: inserting a milestone for the nonexistent project
id 5 makes the `INSERT` raise a foreign-key violation, and the connection
opened by that call is NOT closed — the source has no `try`/`finally`
around `conn.close()`. -/
theorem conn_leak_on_fk_violation_cex :
    (add_milestone emptyDb 1 0 5 "DEV_START" 10 none none).result =
      Except.error SqlError.foreignKeyViolation ∧
    (add_milestone emptyDb 1 0 5 "DEV_START" 10 none none).connClosed = false :=
  ⟨rfl, rfl⟩

/-- C8 (amended): a repository call closes its connection exactly on the
success path; when the underlying statement raises (a foreign-key violation
in `add_milestone` or `add_resource`), the exception propagates before
`conn.close()` and the connection is leaked.  Calls whose statements cannot
raise always close. -/
theorem conn_closed_iff_statement_succeeds :
    ∀ (db : Db) (new_id created_at project_id : Nat) (mtype : String)
      (planned : Nat) (revised : Option Nat) (reason : Option String)
      (ename role phase : String) (pct : Nat) (nstatus : String),
    ((add_milestone db new_id created_at project_id mtype planned revised
        reason).connClosed =
      (add_milestone db new_id created_at project_id mtype planned revised
        reason).result.isOk) ∧
    ((add_resource db new_id created_at ename role project_id phase
        pct).connClosed =
      (add_resource db new_id created_at ename role project_id phase
        pct).result.isOk) ∧
    (delete_project_call db project_id).connClosed = true ∧
    (update_project_status_call db project_id nstatus).connClosed = true := by
  intro db new_id created_at project_id mtype planned revised reason ename role phase pct nstatus
  refine ⟨?_, ?_, rfl, rfl⟩
  · unfold add_milestone
    split <;> rfl
  · unfold add_resource
    split <;> rfl

/-! ## C9: dashboard on-time vs delayed split -/

/-- C9: the on-time vs delayed split is a pure function of the listed
projects: a row contributes to the delayed count exactly when its status is
the string `Delayed`, contributes to the on-time count otherwise, and the
two counts always sum to the number of listed projects. -/
theorem dashboard_on_time_delayed_split :
    ∀ (l : List ProjectRow) (p : ProjectRow),
    on_time_count l + delayed_count l = l.length ∧
    delayed_count (p :: l) =
      (if p.status = some "Delayed" then 1 else 0) + delayed_count l ∧
    on_time_count (p :: l) =
      (if p.status = some "Delayed" then 0 else 1) + on_time_count l := by
  intro l p
  refine ⟨?_, ?_, ?_⟩
  · induction l with
    | nil => rfl
    | cons q t ih =>
      by_cases h : q.status = some "Delayed" <;>
        simp [on_time_count, delayed_count, List.filter_cons, h] at ih ⊢ <;>
        omega
  · by_cases h : p.status = some "Delayed" <;>
      simp [delayed_count, List.filter_cons, h, Nat.add_comm]
  · by_cases h : p.status = some "Delayed" <;>
      simp [on_time_count, List.filter_cons, h, Nat.add_comm]

/-! ## C3: the delayed-suggestion workflow -/

/-- Accepting the `Mark as Delayed` suggestion (`update_project_status _ _
"Delayed"`) sets the status of every row carrying the target id. -/
theorem update_project_status_sets_target (db : Db) (pid : Nat) (s : String) :
    ∀ q ∈ (update_project_status db pid s).projects, q.id = pid → q.status = some s := by
  intro q hq hid
  simp only [update_project_status, List.mem_map] at hq
  obtain ⟨p, hp, hq⟩ := hq
  subst hq
  by_cases h : p.id = pid
  · simp [h]
  · simp [h] at hid

/-- C3: after a successful milestone insert, the delayed-suggestion path is
offered exactly when the milestone has a revised date strictly later than
its planned date and the owning project's current status is not `Delayed`;
the submit handler itself never writes a project row (the suggestion is not
an automatic side effect), and accepting it sets the owning project's
status to `Delayed`. -/
theorem milestone_delayed_suggestion
    (db : Db) (new_id created_at project_id : Nat) (mtype : String)
    (planned : Nat) (revised : Option Nat) (reason : Option String) :
    ((milestone_form_submit db new_id created_at project_id mtype planned
        revised reason).suggestionOffered = true ↔
      (∃ p, get_project_by_id db project_id = some p ∧ p.status ≠ some "Delayed") ∧
      (∃ rd, revised = some rd ∧ planned < rd)) ∧
    (milestone_form_submit db new_id created_at project_id mtype planned
      revised reason).db.projects = db.projects ∧
    (∀ q ∈ (update_project_status
        (milestone_form_submit db new_id created_at project_id mtype planned
          revised reason).db project_id "Delayed").projects,
      q.id = project_id → q.status = some "Delayed") := by
  refine ⟨?_, ?_, update_project_status_sets_target _ _ _⟩
  · by_cases hc : db.projects.any (fun p => p.id == project_id) = true
    · cases revised with
      | none =>
        simp [milestone_form_submit, add_milestone, hc]
      | some rd =>
        by_cases hlt : planned < rd
        · cases hfind : db.projects.find? (fun p => p.id == project_id) with
          | none =>
            have hsome : (db.projects.find? (fun p => p.id == project_id)).isSome :=
              List.find?_isSome.mpr (List.any_eq_true.mp hc)
            rw [hfind] at hsome
            simp at hsome
          | some p =>
            simp [milestone_form_submit, add_milestone, hc, hlt,
              get_project_by_id, hfind]
        · simp [milestone_form_submit, add_milestone, hc, hlt]
    · have hnone : ∀ p, ¬(get_project_by_id db project_id = some p) := by
        intro p hfind
        simp only [get_project_by_id] at hfind
        have hbeq : (p.id == project_id) = true :=
          @List.find?_some _ (fun q => q.id == project_id) p db.projects hfind
        exact hc (List.any_eq_true.mpr
          ⟨p, List.mem_of_find?_eq_some hfind, hbeq⟩)
      simp only [Bool.not_eq_true] at hc
      simp [milestone_form_submit, add_milestone, hc]
      intro p hp
      exact absurd hp (hnone p)
  · by_cases hc : db.projects.any (fun p => p.id == project_id) = true
    · simp [milestone_form_submit, add_milestone, hc]
    · simp only [Bool.not_eq_true] at hc
      simp [milestone_form_submit, add_milestone, hc]

/-- Witness for C3 at a concrete input: a milestone for project 2 (status
`New Request`) planned at day 10 and revised to day 20 makes the suggestion
fire, and accepting it yields a `Delayed` status row. -/
theorem milestone_delayed_suggestion_witness :
    (milestone_form_submit sampleDb 10 5 2 "DEV_START" 10 (some 20)
      none).suggestionOffered = true ∧
    ({ sampleProject2 with status := some "Delayed" } : ProjectRow).status =
      some "Delayed" :=
  ⟨(milestone_delayed_suggestion sampleDb 10 5 2 "DEV_START" 10 (some 20)
      none).1.mpr ⟨⟨sampleProject2, by decide, by decide⟩, ⟨20, rfl, by decide⟩⟩,
   (milestone_delayed_suggestion sampleDb 10 5 2 "DEV_START" 10 (some 20)
      none).2.2 { sampleProject2 with status := some "Delayed" } (by decide) rfl⟩

/-! ## C6: nothing but status and notes is ever updated -/

/-- C6: after creation no entity is modified except the project's `status`
and `notes` fields.  The two updates rewrite exactly the targeted field of
the rows carrying the id, field by field; creates append and leave every
existing row untouched; deletes only remove rows, the survivors being
unchanged input rows in their original order. -/
theorem post_creation_update_frame :
    ∀ (db : Db) (pid mid rid new_id created_at : Nat)
      (s n name product bo sm platforms pgl status dm notes mtype ename role
        phase : String) (planned pct : Nat) (revised : Option Nat)
      (reason : Option String),
    ((update_project_status db pid s).milestones = db.milestones ∧
     (update_project_status db pid s).resources = db.resources ∧
     List.Forall₂ (fun p q =>
         q.id = p.id ∧ q.name = p.name ∧ q.product = p.product ∧
         q.business_owner = p.business_owner ∧ q.scrum_master = p.scrum_master ∧
         q.platforms = p.platforms ∧ q.planned_go_live = p.planned_go_live ∧
         q.delivery_month = p.delivery_month ∧ q.notes = p.notes ∧
         q.created_at = p.created_at ∧
         q.status = (if p.id = pid then some s else p.status))
       db.projects (update_project_status db pid s).projects) ∧
    ((update_project_notes db pid n).milestones = db.milestones ∧
     (update_project_notes db pid n).resources = db.resources ∧
     List.Forall₂ (fun p q =>
         q.id = p.id ∧ q.name = p.name ∧ q.product = p.product ∧
         q.business_owner = p.business_owner ∧ q.scrum_master = p.scrum_master ∧
         q.platforms = p.platforms ∧ q.planned_go_live = p.planned_go_live ∧
         q.delivery_month = p.delivery_month ∧ q.status = p.status ∧
         q.created_at = p.created_at ∧
         q.notes = (if p.id = pid then some n else p.notes))
       db.projects (update_project_notes db pid n).projects) ∧
    ((add_project db new_id created_at name product bo sm platforms pgl
        status dm notes).projects.take db.projects.length = db.projects ∧
     (add_project db new_id created_at name product bo sm platforms pgl
        status dm notes).milestones = db.milestones ∧
     (add_project db new_id created_at name product bo sm platforms pgl
        status dm notes).resources = db.resources) ∧
    (((add_milestone db new_id created_at pid mtype planned revised
        reason).result.toOption.map Db.projects).getD db.projects = db.projects ∧
     ((add_milestone db new_id created_at pid mtype planned revised
        reason).result.toOption.map Db.resources).getD db.resources = db.resources ∧
     (((add_milestone db new_id created_at pid mtype planned revised
        reason).result.toOption.map Db.milestones).getD
          db.milestones).take db.milestones.length = db.milestones) ∧
    (((add_resource db new_id created_at ename role pid phase
        pct).result.toOption.map Db.projects).getD db.projects = db.projects ∧
     ((add_resource db new_id created_at ename role pid phase
        pct).result.toOption.map Db.milestones).getD db.milestones = db.milestones ∧
     (((add_resource db new_id created_at ename role pid phase
        pct).result.toOption.map Db.resources).getD
          db.resources).take db.resources.length = db.resources) ∧
    ((delete_project db pid).projects.Sublist db.projects ∧
     (delete_project db pid).milestones.Sublist db.milestones ∧
     (delete_project db pid).resources.Sublist db.resources) ∧
    ((delete_milestone db mid).projects = db.projects ∧
     (delete_milestone db mid).resources = db.resources ∧
     (delete_milestone db mid).milestones.Sublist db.milestones) ∧
    ((delete_resource db rid).projects = db.projects ∧
     (delete_resource db rid).milestones = db.milestones ∧
     (delete_resource db rid).resources.Sublist db.resources) := by
  intro db pid mid rid new_id created_at s n name product bo sm platforms pgl
    status dm notes mtype ename role phase planned pct revised reason
  refine ⟨⟨rfl, rfl, ?_⟩, ⟨rfl, rfl, ?_⟩, ⟨List.take_left _ _, rfl, rfl⟩,
    ?_, ?_, ⟨List.filter_sublist _, List.filter_sublist _, List.filter_sublist _⟩,
    ⟨rfl, rfl, List.filter_sublist _⟩, ⟨rfl, rfl, List.filter_sublist _⟩⟩
  · show List.Forall₂ _ db.projects (db.projects.map _)
    rw [List.forall₂_map_right_iff, List.forall₂_same]
    intro p _
    by_cases h : p.id = pid <;> simp [h]
  · show List.Forall₂ _ db.projects (db.projects.map _)
    rw [List.forall₂_map_right_iff, List.forall₂_same]
    intro p _
    by_cases h : p.id = pid <;> simp [h]
  · unfold add_milestone
    split
    · exact ⟨rfl, rfl, List.take_left _ _⟩
    · exact ⟨rfl, rfl, List.take_length _⟩
  · unfold add_resource
    split
    · exact ⟨rfl, rfl, List.take_left _ _⟩
    · exact ⟨rfl, rfl, List.take_length _⟩

/-! ## C4: idempotent, additive schema migration -/

/-- Closed form of the migration's effect on the column list: the rename is
applied exactly when `product_squad` is present and `product` is not, and
exactly the missing ones among the four new columns are appended. -/
theorem migrate_projects_cols (t : Table) :
    (migrate_projects t).cols =
      (if t.cols.contains "product_squad" && !(t.cols.contains "product")
        then t.cols.map renameMap else t.cols)
      ++ addedCols.filter (fun c => !(t.cols.contains c)) := by
  unfold migrate_projects renameColumn addColumn renameMap
  by_cases h1 : "product_squad" ∈ t.cols ∧ "product" ∉ t.cols <;>
  by_cases h2 : "scrum_master" ∈ t.cols <;>
  by_cases h3 : "platforms" ∈ t.cols <;>
  by_cases h4 : "delivery_month" ∈ t.cols <;>
  by_cases h5 : "notes" ∈ t.cols <;>
    simp [h1, h2, h3, h4, h5, addedCols, List.append_assoc]

/-- Closed form of the migration's effect on the data: every row is kept,
in order, with its cell values unchanged; the only change is a NULL cell
appended for each added column.  (The rename touches no row data at all.) -/
theorem migrate_projects_rows (t : Table) :
    (migrate_projects t).rows =
      t.rows.map (fun r => r ++
        (addedCols.filter (fun c => !(t.cols.contains c))).map
          (fun _ => (none : Option String))) := by
  unfold migrate_projects renameColumn addColumn
  by_cases h1 : "product_squad" ∈ t.cols ∧ "product" ∉ t.cols <;>
  by_cases h2 : "scrum_master" ∈ t.cols <;>
  by_cases h3 : "platforms" ∈ t.cols <;>
  by_cases h4 : "delivery_month" ∈ t.cols <;>
  by_cases h5 : "notes" ∈ t.cols <;>
    simp [h1, h2, h3, h4, h5, addedCols, List.map_map, Function.comp,
      List.append_assoc]

/-- Bridge between the `Bool` column probe and list membership. -/
theorem mem_contains (l : List String) (c : String) : l.contains c = true ↔ c ∈ l :=
  List.elem_iff

/-- The rename condition as a proposition. -/
theorem rename_cond_iff (t : Table) :
    (t.cols.contains "product_squad" && !(t.cols.contains "product")) = true ↔
      ("product_squad" ∈ t.cols ∧ "product" ∉ t.cols) := by
  constructor
  · intro h
    have h' : t.cols.contains "product_squad" = true ∧
        (!(t.cols.contains "product")) = true := by simpa using h
    refine ⟨(mem_contains _ _).mp h'.1, fun hm => ?_⟩
    have hb := (mem_contains _ _).mpr hm
    rw [hb] at h'
    exact absurd h'.2 (by decide)
  · rintro ⟨ha, hb⟩
    rw [Bool.and_eq_true]
    refine ⟨(mem_contains _ _).mpr ha, ?_⟩
    rw [Bool.not_eq_true', Bool.eq_false_iff]
    intro hcon
    exact hb ((mem_contains _ _).mp hcon)

/-- The migration never drops a column: every input column survives, under
the rename map when the rename fires. -/
theorem migrate_projects_keeps_columns (t : Table) (c : String) (hc : c ∈ t.cols) :
    (if (t.cols.contains "product_squad" && !(t.cols.contains "product")) = true
      then renameMap c else c) ∈ (migrate_projects t).cols := by
  rw [migrate_projects_cols]
  by_cases h1 : (t.cols.contains "product_squad" && !(t.cols.contains "product")) = true
  · rw [if_pos h1, if_pos h1]
    exact List.mem_append_left _ (List.mem_map_of_mem renameMap hc)
  · rw [if_neg h1, if_neg h1]
    exact List.mem_append_left _ hc

/-- After one migration run all four addable columns are present. -/
theorem migrate_contains_added (t : Table) (c : String) (hc : c ∈ addedCols) :
    c ∈ (migrate_projects t).cols := by
  have hc4 : c = "scrum_master" ∨ c = "platforms" ∨ c = "delivery_month" ∨ c = "notes" := by
    simpa [addedCols] using hc
  rw [migrate_projects_cols]
  by_cases hin : c ∈ t.cols
  · apply List.mem_append_left
    by_cases h1 : (t.cols.contains "product_squad" && !(t.cols.contains "product")) = true
    · rw [if_pos h1]
      have hrn : renameMap c = c := by
        have hne : c ≠ "product_squad" := by
          rcases hc4 with rfl | rfl | rfl | rfl <;> decide
        simp [renameMap, hne]
      rw [← hrn]
      exact List.mem_map_of_mem renameMap hin
    · rw [if_neg h1]
      exact hin
  · apply List.mem_append_right
    refine List.mem_filter.mpr ⟨hc, ?_⟩
    simpa using hin

/-- After one migration run the rename condition can no longer fire. -/
theorem migrate_rename_resolved (t : Table) :
    ¬("product_squad" ∈ (migrate_projects t).cols ∧
      "product" ∉ (migrate_projects t).cols) := by
  rw [migrate_projects_cols]
  rintro ⟨hps, hnp⟩
  have hfil : "product_squad" ∉ addedCols.filter (fun c => !(t.cols.contains c)) := by
    intro h
    have hmem := (List.mem_filter.mp h).1
    simp [addedCols] at hmem
  by_cases h1 : (t.cols.contains "product_squad" && !(t.cols.contains "product")) = true
  · rw [if_pos h1] at hps hnp
    rcases List.mem_append.mp hps with hl | hr
    · obtain ⟨c, hcmem, hcr⟩ := List.mem_map.mp hl
      by_cases hcp : c = "product_squad"
      · rw [hcp] at hcr
        simp [renameMap] at hcr
      · simp [renameMap, hcp] at hcr
    · exact hfil hr
  · rw [if_neg h1] at hps hnp
    have h1' : ¬("product_squad" ∈ t.cols ∧ "product" ∉ t.cols) :=
      fun hh => h1 ((rename_cond_iff t).mpr hh)
    rcases List.mem_append.mp hps with hl | hr
    · have hprod : "product" ∈ t.cols := by
        by_contra hnp2
        exact h1' ⟨hl, hnp2⟩
      exact hnp (List.mem_append_left _ hprod)
    · exact hfil hr

/-- A table satisfying the post-migration conditions is a fixed point of the
migration. -/
theorem migrate_projects_stable (q : Table)
    (h1 : ¬("product_squad" ∈ q.cols ∧ "product" ∉ q.cols))
    (h2 : "scrum_master" ∈ q.cols)
    (h3 : "platforms" ∈ q.cols)
    (h4 : "delivery_month" ∈ q.cols)
    (h5 : "notes" ∈ q.cols) :
    migrate_projects q = q := by
  unfold migrate_projects
  simp [h1, h2, h3, h4, h5]

/-- Running the projects-table migration twice is the same as running it
once. -/
theorem migrate_projects_idem (t : Table) :
    migrate_projects (migrate_projects t) = migrate_projects t :=
  migrate_projects_stable _ (migrate_rename_resolved t)
    (migrate_contains_added t _ (by decide))
    (migrate_contains_added t _ (by decide))
    (migrate_contains_added t _ (by decide))
    (migrate_contains_added t _ (by decide))

/-- `init_db` is idempotent on the whole store. -/
theorem init_db_idem (s : Store) : init_db (init_db s) = init_db s := by
  unfold init_db
  simp [migrate_projects_idem]

/-- C4: schema migration is idempotent — a second `init_db` run on an
already-migrated store changes nothing — and additive: existing rows are
kept in order with all cell values intact (only NULL cells are appended for
added columns), no column is ever dropped, `product_squad` is renamed to
`product` exactly when the former exists and the latter does not, and each
of the four new columns is added exactly when missing. -/
theorem init_db_migration_idempotent_additive :
    (∀ s, init_db (init_db s) = init_db s) ∧
    (∀ t, (migrate_projects t).cols =
      (if t.cols.contains "product_squad" && !(t.cols.contains "product")
        then t.cols.map renameMap else t.cols)
      ++ addedCols.filter (fun c => !(t.cols.contains c))) ∧
    (∀ t, (migrate_projects t).rows =
      t.rows.map (fun r => r ++
        (addedCols.filter (fun c => !(t.cols.contains c))).map
          (fun _ => (none : Option String)))) ∧
    (∀ t c, c ∈ t.cols →
      (if (t.cols.contains "product_squad" && !(t.cols.contains "product")) = true
        then renameMap c else c) ∈ (migrate_projects t).cols) :=
  ⟨init_db_idem, migrate_projects_cols, migrate_projects_rows,
    migrate_projects_keeps_columns⟩

/-- A pre-migration projects table in the old schema (has `product_squad`,
lacks the four new columns), with one data row. -/
def oldTable : Table :=
  { cols := ["id", "name", "product_squad", "business_owner",
             "planned_go_live", "status", "created_at"],
    rows := [[some "1", some "Alpha", some "P", some "O",
              some "2026-01-01", some "New Request", some "t0"]] }

/-- Witness for C4 at a concrete old-schema table: the `product_squad`
column survives the migration (as `product`). -/
theorem init_db_migration_idempotent_additive_witness :
    (if (oldTable.cols.contains "product_squad"
          && !(oldTable.cols.contains "product")) = true
      then renameMap "product_squad" else "product_squad")
      ∈ (migrate_projects oldTable).cols :=
  init_db_migration_idempotent_additive.2.2.2 oldTable "product_squad" (by decide)

/-! ## C10: the name-keyed project map -/

/-- A dict assignment keeps the key list unchanged when the key exists, and
appends the key otherwise. -/
theorem dict_set_keys (d : List (String × Nat)) (k : String) (v : Nat) :
    (dict_set d k v).map Prod.fst =
      if d.any (fun kv => kv.1 == k) then d.map Prod.fst
      else d.map Prod.fst ++ [k] := by
  unfold dict_set
  split
  · rw [List.map_map]
    apply List.map_congr_left
    intro kv _
    by_cases h : kv.1 = k
    · simp [h]
    · simp [h]
  · simp

/-- A dict assignment preserves key uniqueness. -/
theorem keys_nodup_dict_set (d : List (String × Nat)) (k : String) (v : Nat)
    (hd : (d.map Prod.fst).Nodup) : ((dict_set d k v).map Prod.fst).Nodup := by
  rw [dict_set_keys]
  split
  · exact hd
  · next hany =>
    rw [List.nodup_append]
    refine ⟨hd, List.nodup_singleton _, ?_⟩
    intro a ha hb
    have hak : a = k := by simpa using hb
    subst hak
    obtain ⟨kv, hkv, hfst⟩ := List.mem_map.mp ha
    exact hany (List.any_eq_true.mpr ⟨kv, hkv, by simp [hfst]⟩)

/-- Folding dict assignments preserves key uniqueness. -/
theorem keys_nodup_fold (l : List (String × Nat)) :
    ∀ d, (d.map Prod.fst).Nodup →
      ((l.foldl (fun d kv => dict_set d kv.1 kv.2) d).map Prod.fst).Nodup := by
  induction l with
  | nil => intro d hd; exact hd
  | cons kv t ih => intro d hd; exact ih _ (keys_nodup_dict_set _ _ _ hd)

/-- Every entry of a dict after an assignment is an old entry or the
assigned pair. -/
theorem dict_set_mem_sub (d : List (String × Nat)) (k : String) (v : Nat) :
    ∀ kv ∈ dict_set d k v, kv ∈ d ∨ kv = (k, v) := by
  intro kv hkv
  unfold dict_set at hkv
  split at hkv
  · obtain ⟨kv0, hkv0, heq⟩ := List.mem_map.mp hkv
    by_cases h : kv0.1 = k
    · right
      rw [← heq]
      simp [h]
    · left
      simp [h] at heq
      rw [← heq]
      exact hkv0
  · rcases List.mem_append.mp hkv with h | h
    · left; exact h
    · right; simpa using h

/-- Every entry of the folded dict comes from the seed or the input list. -/
theorem fold_mem_sub (l : List (String × Nat)) :
    ∀ d kv, kv ∈ l.foldl (fun d kv => dict_set d kv.1 kv.2) d → kv ∈ d ∨ kv ∈ l := by
  induction l with
  | nil => intro d kv h; left; exact h
  | cons a t ih =>
    intro d kv h
    rcases ih _ kv h with hd | ht
    · rcases dict_set_mem_sub _ _ _ _ hd with h1 | h2
      · left; exact h1
      · right
        rw [h2]
        exact List.mem_cons_self _ _
    · right; exact List.mem_cons_of_mem _ ht

/-- C10: the name-to-id map used by the milestone and resource pages has at
most one entry per name; every entry comes from an actual project row; and
whenever two projects share a name but differ in id, at most one of them is
reachable through name-based selection. -/
theorem get_project_names_unique (db : Db) :
    ((get_project_names db).map Prod.fst).Nodup ∧
    (∀ n i, dict_get (get_project_names db) n = some i →
      ∃ p ∈ db.projects, p.name = n ∧ p.id = i) ∧
    (∀ p q, p ∈ db.projects → q ∈ db.projects → p.name = q.name → p.id ≠ q.id →
      ¬(dict_get (get_project_names db) p.name = some p.id ∧
        dict_get (get_project_names db) q.name = some q.id)) := by
  refine ⟨?_, ?_, ?_⟩
  · unfold get_project_names dict_of_pairs
    exact keys_nodup_fold _ [] (by simp)
  · intro n i h
    unfold dict_get at h
    cases hfind : (get_project_names db).find? (fun kv => kv.1 == n) with
    | none =>
      rw [hfind] at h
      simp at h
    | some kv =>
      rw [hfind] at h
      have h : kv.2 = i := Option.some.inj h
      have hk : kv.1 = n := by
        simpa using (@List.find?_some _ (fun kv => kv.1 == n) kv _ hfind)
      have hmem : kv ∈ get_project_names db := List.mem_of_find?_eq_some hfind
      unfold get_project_names dict_of_pairs at hmem
      rcases fold_mem_sub _ [] kv hmem with h0 | hl
      · cases h0
      · obtain ⟨p, hp, hpe⟩ := List.mem_map.mp hl
        refine ⟨p, by simpa using hp, ?_, ?_⟩
        · have h1 := congrArg Prod.fst hpe
          simp only at h1
          exact h1.trans hk
        · have h2 := congrArg Prod.snd hpe
          simp only at h2
          exact h2.trans h
  · intro p q hp hq hname hid h12
    obtain ⟨h1, h2⟩ := h12
    rw [hname] at h1
    rw [h1] at h2
    exact hid (Option.some.inj h2)

/-- A second project sharing the name `Alpha` but with id 2. -/
def dupProject : ProjectRow :=
  { sampleProject2 with name := "Alpha" }

/-- A store holding two distinct projects that share one name. -/
def dupDb : Db :=
  { projects := [sampleProject1, dupProject], milestones := [], resources := [] }

/-- Witness for C10 at a concrete store with two projects named `Alpha`
(ids 1 and 2): name-based selection cannot reach both. -/
theorem get_project_names_unique_witness :
    ¬(dict_get (get_project_names dupDb) "Alpha" = some 1 ∧
      dict_get (get_project_names dupDb) "Alpha" = some 2) :=
  fun h =>
    (get_project_names_unique dupDb).2.2 sampleProject1 dupProject
      (by decide) (by decide) (by decide) (by decide) h

/-! ## C5: conjunctive filtering, ordering, and the LIKE substring match -/

/-- Whether a product-filter string is free of the `LIKE` metacharacters. -/
def no_wildcards (f : String) : Bool :=
  f.toList.all (fun c => !(c == '%' || c == '_'))

/-- Case-insensitive substring containment, written directly from the
spec's words ("substring match on product") for comparison with the code's
`LIKE` semantics. -/
def spec_substring_ci (needle hay : String) : Prop :=
  ∃ u v, hay.toList.map asciiLower = u ++ needle.toList.map asciiLower ++ v

/-- A single trailing percent matches every string. -/
theorem likeMatch_pct_all (s : List Char) : likeMatch ['%'] s = true := by
  induction s with
  | nil => simp [likeMatch]
  | cons c s1 ih => simp [likeMatch, ih]

/-- Matching a wildcard-free literal followed by a percent is exactly a
case-insensitive-prefix test. -/
theorem likeMatch_lit (cs : List Char) (h : ∀ c ∈ cs, c ≠ '%' ∧ c ≠ '_') :
    ∀ s, likeMatch (cs ++ ['%']) s = true ↔
      ∃ v, s.map asciiLower = cs.map asciiLower ++ v := by
  induction cs with
  | nil =>
    intro s
    simp only [List.nil_append, likeMatch_pct_all s, List.map_nil, true_iff]
    exact ⟨s.map asciiLower, rfl⟩
  | cons c cs1 ih =>
    have hc := h c (List.mem_cons_self _ _)
    have h1 : ∀ d ∈ cs1, d ≠ '%' ∧ d ≠ '_' := fun d hd => h d (List.mem_cons_of_mem _ hd)
    intro s
    cases s with
    | nil =>
      simp [likeMatch, hc.1]
    | cons d s1 =>
      rw [List.cons_append]
      simp only [likeMatch, hc.1, if_false, hc.2, Bool.and_eq_true, ih h1 s1,
        List.map_cons, List.cons_append, List.cons.injEq, likeCharMatches,
        beq_iff_eq]
      constructor
      · rintro ⟨hcd, v, hv⟩
        exact ⟨v, hcd.symm, hv⟩
      · rintro ⟨v, hcd, hv⟩
        exact ⟨hcd.symm, v, hv⟩

/-- A leading percent splits off an arbitrary prefix of the string. -/
theorem likeMatch_pct_split (ps : List Char) :
    ∀ s, likeMatch ('%' :: ps) s = true ↔
      ∃ u v, s = u ++ v ∧ likeMatch ps v = true := by
  intro s
  induction s with
  | nil =>
    simp only [likeMatch, if_pos rfl]
    constructor
    · intro h
      exact ⟨[], [], rfl, h⟩
    · rintro ⟨u, v, huv, hv⟩
      obtain ⟨rfl, rfl⟩ := List.append_eq_nil.mp huv.symm
      exact hv
  | cons d s1 ih =>
    have heq : likeMatch ('%' :: ps) (d :: s1) =
        (likeMatch ps (d :: s1) || likeMatch ('%' :: ps) s1) := by
      simp [likeMatch]
    rw [heq, Bool.or_eq_true, ih]
    constructor
    · rintro (h | ⟨u, v, huv, hv⟩)
      · exact ⟨[], d :: s1, rfl, h⟩
      · exact ⟨d :: u, v, by rw [huv, List.cons_append], hv⟩
    · rintro ⟨u, v, huv, hv⟩
      cases u with
      | nil =>
        left
        rw [List.nil_append] at huv
        rw [← huv] at hv
        exact hv
      | cons e u1 =>
        right
        rw [List.cons_append] at huv
        obtain ⟨rfl, rfl⟩ : d = e ∧ s1 = u1 ++ v :=
          ⟨(List.cons.injEq _ _ _ _).mp huv |>.1, (List.cons.injEq _ _ _ _).mp huv |>.2⟩
        exact ⟨u1, v, rfl, hv⟩

/-- For a wildcard-free filter string, the `LIKE` pattern built by
`get_all_projects` is exactly a case-insensitive substring test. -/
theorem like_pattern_substring (f prod : String) (h : no_wildcards f = true) :
    likeMatch (like_pattern f) prod.toList = true ↔ spec_substring_ci f prod := by
  have hcs : ∀ c ∈ f.toList, c ≠ '%' ∧ c ≠ '_' := by
    intro c hc
    have hcb := List.all_eq_true.mp h c hc
    simp only [Bool.not_eq_true', Bool.or_eq_false_iff, beq_eq_false_iff_ne] at hcb
    exact hcb
  unfold like_pattern spec_substring_ci
  rw [likeMatch_pct_split]
  constructor
  · rintro ⟨u, v, huv, hv⟩
    obtain ⟨w, hw⟩ := (likeMatch_lit f.toList hcs v).mp hv
    refine ⟨u.map asciiLower, w, ?_⟩
    rw [huv, List.map_append, hw, List.append_assoc]
  · rintro ⟨u, w, hw⟩
    refine ⟨prod.toList.take u.length, prod.toList.drop u.length,
      (List.take_append_drop _ _).symm, ?_⟩
    rw [likeMatch_lit f.toList hcs]
    refine ⟨w, ?_⟩
    rw [List.map_drop, hw, List.append_assoc, List.drop_left]

/-- The `WHERE` clause decomposed into its three conjuncts, with the
truthiness rules (absent or empty filter: no constraint) and the SQL NULL
rules (a NULL column never matches) spelled out. -/
theorem row_matches_iff (mf pf : Option String) (sf : Option (List String))
    (p : ProjectRow) :
    row_matches mf pf sf p = true ↔
      ((∀ m, mf = some m → m ≠ "" → p.delivery_month = some m) ∧
       (∀ f, pf = some f → f ≠ "" → ∃ prod, p.product = some prod ∧
          likeMatch (like_pattern f) prod.toList = true) ∧
       (∀ l, sf = some l → l ≠ [] → ∃ st, p.status = some st ∧ st ∈ l)) := by
  unfold row_matches
  rw [Bool.and_eq_true, Bool.and_eq_true, and_assoc]
  have hm : (match mf with
      | none => true
      | some m => if m == "" then true else p.delivery_month == some m) = true ↔
      (∀ m, mf = some m → m ≠ "" → p.delivery_month = some m) := by
    cases mf with
    | none => simp
    | some m =>
      by_cases hme : m = ""
      · subst hme
        simp
      · simp [hme]
  have hp : (match pf with
      | none => true
      | some f =>
        if f == "" then true
        else match p.product with
             | none => false
             | some prod => likeMatch (like_pattern f) prod.toList) = true ↔
      (∀ f, pf = some f → f ≠ "" → ∃ prod, p.product = some prod ∧
        likeMatch (like_pattern f) prod.toList = true) := by
    cases pf with
    | none => simp
    | some f =>
      by_cases hfe : f = ""
      · subst hfe
        simp
      · cases hprod : p.product with
        | none => simp [hfe, hprod]
        | some prod => simp [hfe, hprod]
  have hs : (match sf with
      | none => true
      | some l =>
        if l.isEmpty then true
        else match p.status with
             | none => false
             | some s => l.contains s) = true ↔
      (∀ l, sf = some l → l ≠ [] → ∃ st, p.status = some st ∧ st ∈ l) := by
    cases sf with
    | none => simp
    | some l =>
      by_cases hle : l = []
      · subst hle
        simp
      · cases hst : p.status with
        | none => simp [hle, hst, List.isEmpty_iff]
        | some st => simp [hle, hst, List.isEmpty_iff, List.elem_iff]
  exact and_congr hm (and_congr hp hs)

/-- C5: `get_all_projects` filters conjunctively — exact match on delivery
month, `LIKE` containment on product (for metacharacter-free filter text
this is exactly case-insensitive substring match), set membership on status
— with an absent or empty filter placing no constraint; the concrete query
month = `Mar 2026` with status set `{Go-Live}` returns only rows matching
both; and the result is ordered most recently created first. -/
theorem get_all_projects_spec (mf pf : Option String) (sf : Option (List String))
    (db : Db) :
    (∀ p, p ∈ get_all_projects mf pf sf db ↔
       p ∈ db.projects ∧
       (∀ m, mf = some m → m ≠ "" → p.delivery_month = some m) ∧
       (∀ f, pf = some f → f ≠ "" → ∃ prod, p.product = some prod ∧
          likeMatch (like_pattern f) prod.toList = true) ∧
       (∀ l, sf = some l → l ≠ [] → ∃ st, p.status = some st ∧ st ∈ l)) ∧
    (∀ f prod, no_wildcards f = true →
       (likeMatch (like_pattern f) prod.toList = true ↔ spec_substring_ci f prod)) ∧
    List.Sorted created_desc (get_all_projects mf pf sf db) ∧
    (∀ p, p ∈ get_all_projects (some "Mar 2026") none (some ["Go-Live"]) db →
       p.delivery_month = some "Mar 2026" ∧ p.status = some "Go-Live") := by
  refine ⟨?_, fun f prod h => like_pattern_substring f prod h, ?_, ?_⟩
  · intro p
    unfold get_all_projects
    simp only [List.mem_insertionSort, List.mem_filter, row_matches_iff]
  · exact List.sorted_insertionSort _ _
  · intro p hp
    unfold get_all_projects at hp
    simp only [List.mem_insertionSort, List.mem_filter, row_matches_iff] at hp
    obtain ⟨_, ⟨h1, _, h3⟩⟩ := hp
    refine ⟨h1 _ rfl (by decide), ?_⟩
    obtain ⟨st, hst, hin⟩ := h3 _ rfl (by decide)
    have : st = "Go-Live" := by simpa using hin
    rw [hst, this]

/-- Witness for C5 at a concrete store: the `Mar 2026` + `Go-Live` query
yields rows matching both filters, and a concrete wildcard-free filter is a
substring test. -/
theorem get_all_projects_spec_witness :
    (sampleProject1.delivery_month = some "Mar 2026" ∧
      sampleProject1.status = some "Go-Live") ∧
    (likeMatch (like_pattern "gel") "Angelia".toList = true ↔
      spec_substring_ci "gel" "Angelia") :=
  ⟨(get_all_projects_spec none none none sampleDb).2.2.2 sampleProject1 (by decide),
   (get_all_projects_spec none none none sampleDb).2.1 "gel" "Angelia" (by decide)⟩

end ProjectTracker
